import Mathlib

/-!
Verification development for the ada-compliance-dashboard repository.

The repository is a set of stateless Vercel serverless handlers over a
Google-Sheets row store.  Each handler is embedded below as a pure Lean
function from the request fields and a snapshot of the sheet store to a
typed response together with the list of cell writes it issues.  Cell
values are strings, exactly as returned by the Sheets `values.get` API
(first row is the header; handlers drop it).

String helpers (`trim`, `split`, `parseInt`) are re-implemented
structurally on `List Char` so that every definition reduces inside the
kernel; each mirrors the ECMAScript behaviour on the value space that
actually occurs (ASCII cell data).
-/

namespace Ada

/-! ## JS string primitives -/

/-- ECMAScript whitespace test, restricted to the ASCII characters that can
occur in sheet cells. -/
def isJsWs (c : Char) : Bool :=
  c = ' ' ∨ c = '\t' ∨ c = '\n' ∨ c = '\r'

/-- `String.prototype.trim`: strip leading and trailing whitespace. -/
def jsTrim (s : String) : String :=
  String.mk ((((s.data.dropWhile isJsWs).reverse).dropWhile isJsWs).reverse)

/-- Core of `String.prototype.split(sep)` on character lists. -/
def splitChar (sep : Char) : List Char → List Char → List (List Char)
  | [], acc => [acc.reverse]
  | c :: rest, acc =>
    if c = sep then acc.reverse :: splitChar sep rest []
    else splitChar sep rest (c :: acc)

/-- `String.prototype.split(sep)` for a one-character separator. -/
def jsSplit (s : String) (sep : Char) : List String :=
  (splitChar sep s.data []).map String.mk

/-- `list.join(',')`. -/
def joinComma : List String → String
  | [] => ""
  | [x] => x
  | x :: rest => x ++ "," ++ joinComma rest

/-! ## Row store model

A sheet is a list of rows (row 0 is the header); the store maps a sheet
name to its rows.  A `CellWrite` records one `values.update` of a single
cell: `rowIdx` is the 0-based index into the full row list (the sheet row
number used in the source ranges such as `Customers!F${n}` is `rowIdx + 1`,
because sheet rows are 1-based). -/

instance {ε α : Type} [DecidableEq ε] [DecidableEq α] : DecidableEq (Except ε α) :=
  fun a b =>
    match a, b with
    | .ok x, .ok y => decidable_of_iff (x = y) (by simp)
    | .error x, .error y => decidable_of_iff (x = y) (by simp)
    | .ok _, .error _ => isFalse (by simp)
    | .error _, .ok _ => isFalse (by simp)

abbrev Row := List String
abbrev Sheet := List Row
abbrev Store := String → Sheet

structure CellWrite where
  sheet : String
  rowIdx : Nat
  colIdx : Nat
  value : String
deriving DecidableEq, Repr

/-- Replace one cell of one row; out-of-range indices leave the sheet as is. -/
def setCell (rows : Sheet) (i j : Nat) (v : String) : Sheet :=
  rows.set i ((rows.getD i []).set j v)

def applyWrite (st : Store) (w : CellWrite) : Store :=
  fun s => if s = w.sheet then setCell (st s) w.rowIdx w.colIdx w.value else st s

def applyWrites (st : Store) (ws : List CellWrite) : Store :=
  ws.foldl applyWrite st

/-! ## Website-list mutators

Embedded from `src/api/add-website.js` and the remove-website handler
(`src/unnamed/part_000`).  Both find the customer row by bearer token in
column N (index 13) and read the comma-joined URL list from column F
(index 5).  Request fields are strings; the absent/empty request field
check `!token || !new_url` is the ECMAScript falsiness test, which for
strings is emptiness. -/

inductive MutationError
  | missingFields      -- 400 "Token and new_url/remove_url required"
  | customerNotFound   -- 404 "Customer not found"
  | planRequired       -- 403 "Professional plan required"
  | limitExceeded      -- 400 "Maximum 5 websites allowed"
  | duplicateUrl       -- 400 "Website already exists"
  | invalidUrl         -- 400 "Invalid URL format"
  | urlNotFound        -- 404 "Website not found"
  | lastWebsite        -- 400 "Cannot remove last website"
deriving DecidableEq, Repr

structure MutResult where
  response : Except MutationError (List String)
  writes : List CellWrite
deriving DecidableEq, Repr

/-- `customer[5].split(',').map(url => url.trim()).filter(Boolean)`. -/
def parseUrls (cell : String) : List String :=
  ((jsSplit cell ',').map jsTrim).filter (fun u => u ≠ "")

/-- Handler of `src/api/add-website.js` (POST /api/add-website).  The
customer row lookup is `findIndex(row => row[13] === token)` over the data
rows (header dropped); a JS row shorter than 14 entries yields `undefined
=== token`, which is false for every string token, so `row.get? 13 = some
token` matches it exactly.  The URL
well-formedness test `new URL(u)` is delegated to the host runtime, so it
is a parameter. -/
def addWebsite (isValidUrl : String → Bool) (store : Store)
    (token new_url : String) : MutResult :=
  if token = "" ∨ new_url = "" then ⟨.error .missingFields, []⟩
  else
    let customerData := (store "Customers").drop 1
    match (customerData.findIdx? (fun row => row.get? 13 = some token)) with
    | none => ⟨.error .customerNotFound, []⟩
    | some customerIndex =>
      let customer := customerData.getD customerIndex []
      if customer.getD 6 "" ≠ "professional" then ⟨.error .planRequired, []⟩
      else
        let currentUrls := parseUrls (customer.getD 5 "")
        if currentUrls.length ≥ 5 then ⟨.error .limitExceeded, []⟩
        else
          let normalizedUrl := jsTrim new_url
          if normalizedUrl ∈ currentUrls then ⟨.error .duplicateUrl, []⟩
          else if ¬ isValidUrl normalizedUrl then ⟨.error .invalidUrl, []⟩
          else
            let updated := currentUrls ++ [normalizedUrl]
            ⟨.ok updated,
             [⟨"Customers", customerIndex + 1, 5, joinComma updated⟩]⟩

/-- Handler of the remove-website endpoint (`src/unnamed/part_000`,
POST /api/remove-website).  Note: unlike `addWebsite` it performs no plan
check. -/
def removeWebsite (store : Store) (token remove_url : String) : MutResult :=
  if token = "" ∨ remove_url = "" then ⟨.error .missingFields, []⟩
  else
    let customerData := (store "Customers").drop 1
    match (customerData.findIdx? (fun row => row.get? 13 = some token)) with
    | none => ⟨.error .customerNotFound, []⟩
    | some customerIndex =>
      let customer := customerData.getD customerIndex []
      let currentUrls := parseUrls (customer.getD 5 "")
      let updatedUrls := currentUrls.filter (fun u => u ≠ jsTrim remove_url)
      if updatedUrls.length = currentUrls.length then ⟨.error .urlNotFound, []⟩
      else if updatedUrls.length = 0 then ⟨.error .lastWebsite, []⟩
      else
        ⟨.ok updatedUrls,
         [⟨"Customers", customerIndex + 1, 5, joinComma updatedUrls⟩]⟩


/-! ## Example fixtures used by witnesses -/

/-- Customer row with two monitored sites, professional plan, token in column N. -/
def exRow2 : Row :=
  ["CUST001", "a@b.c", "Acme", "x", "x", "https://a.com,https://b.com",
   "professional", "x", "x", "x", "x", "x", "x", "tok123"]

/-- Customer row with five monitored sites (the column-F cell holds the
comma-joined list). -/
def exRow5 : Row :=
  ["CUST001", "a@b.c", "Acme", "x", "x",
   "https://a.com,https://b.com,https://c.com,https://d.com,https://e.com",
   "professional", "x", "x", "x", "x", "x", "x", "tok123"]

/-- Customer row with a single monitored site, on the free plan. -/
def exRow1 : Row :=
  ["CUST001", "a@b.c", "Acme", "x", "x", "https://a.com",
   "free", "x", "x", "x", "x", "x", "x", "tok123"]

def mkCustomersStore (r : Row) : Store :=
  fun s => if s = "Customers" then [["customer_id"], r] else []

def exStore2 : Store := mkCustomersStore exRow2
def exStore5 : Store := mkCustomersStore exRow5
def exStore1 : Store := mkCustomersStore exRow1

/-! ## C4: add-website cardinality limit -/

/-- C4: for an authenticated professional customer whose stored website-URL
list already contains 5 URLs, every add call fails with `limitExceeded` and
no write to the row store occurs, so the stored row is unchanged. -/
theorem C4_add_website_limit (v : String → Bool) (store : Store)
    (token new_url : String) (i : Nat)
    (htok : token ≠ "") (hurl : new_url ≠ "")
    (hfind : ((store "Customers").drop 1).findIdx?
      (fun row => row.get? 13 = some token) = some i)
    (hplan : (((store "Customers").drop 1).getD i []).getD 6 "" = "professional")
    (hlen : (parseUrls ((((store "Customers").drop 1).getD i []).getD 5 "")).length = 5) :
    (addWebsite v store token new_url).response = .error .limitExceeded ∧
    applyWrites store (addWebsite v store token new_url).writes = store := by
  unfold addWebsite
  simp only [htok, hurl, or_self, if_false, hfind]
  simp at hplan hlen
  simp [hplan, hlen, applyWrites]

/-- Witness for C4 at a concrete store whose customer already monitors
five sites. -/
theorem C4_add_website_limit_witness :
    (addWebsite (fun _ => true) exStore5 "tok123" "https://f.com").response
      = .error .limitExceeded ∧
    applyWrites exStore5
      (addWebsite (fun _ => true) exStore5 "tok123" "https://f.com").writes
      = exStore5 :=
  C4_add_website_limit (fun _ => true) exStore5 "tok123" "https://f.com" 0
    (by decide) (by decide) (by decide) (by decide) (by decide)

/-! ## C5: remove-website rules -/

/-- Removing the only element leaves nothing: filtering `[u]` by
difference from `u` is empty. -/
theorem filter_ne_singleton_self (u : String) :
    [u].filter (fun x => x ≠ u) = [] := by simp

/-- Filtering by difference from an absent element keeps the list. -/
theorem filter_ne_of_not_mem (t : String) (cur : List String) (h : t ∉ cur) :
    cur.filter (fun x => x ≠ t) = cur :=
  List.filter_eq_self.mpr (fun a ha => by
    simp only [ne_eq, decide_not, Bool.not_eq_true', decide_eq_false_iff_not]
    intro hEq; exact h (hEq ▸ ha))

/-- C5: for an authenticated customer, (1) removing the sole stored URL
fails with `lastWebsite` and leaves the store unchanged, (2) removing a
URL that is not present fails with `urlNotFound` and leaves the store
unchanged, and (3) a successful remove returns a list of length at least 1. -/
theorem C5_remove_website_rules (store : Store) (token remove_url : String) (i : Nat)
    (htok : token ≠ "") (hurl : remove_url ≠ "")
    (hfind : ((store "Customers").drop 1).findIdx?
      (fun row => row.get? 13 = some token) = some i) :
    (∀ u, parseUrls ((((store "Customers").drop 1).getD i []).getD 5 "") = [u] →
      jsTrim remove_url = u →
      (removeWebsite store token remove_url).response = .error .lastWebsite ∧
      applyWrites store (removeWebsite store token remove_url).writes = store) ∧
    (jsTrim remove_url ∉ parseUrls ((((store "Customers").drop 1).getD i []).getD 5 "") →
      (removeWebsite store token remove_url).response = .error .urlNotFound ∧
      applyWrites store (removeWebsite store token remove_url).writes = store) ∧
    (∀ l, (removeWebsite store token remove_url).response = .ok l → 1 ≤ l.length) := by
  unfold removeWebsite
  simp only [htok, hurl, or_self, if_false, hfind]
  refine ⟨?_, ?_, ?_⟩
  · intro u h1 h2
    simp at h1
    simp [h1, h2, applyWrites]
  · intro h
    have hfe := filter_ne_of_not_mem (jsTrim remove_url)
      (parseUrls ((((store "Customers").drop 1).getD i []).getD 5 "")) h
    rw [hfe]
    simp [applyWrites]
  · intro l h
    split at h
    · simp at h
    · split at h
      · simp at h
      · rename_i h2
        cases h
        omega

/-- Witness for C5 at a concrete store whose customer monitors a single
site: removing it fails with `lastWebsite` and the store is unchanged. -/
theorem C5_remove_website_rules_witness :
    (removeWebsite exStore1 "tok123" "https://a.com").response = .error .lastWebsite ∧
    applyWrites exStore1 (removeWebsite exStore1 "tok123" "https://a.com").writes
      = exStore1 :=
  (C5_remove_website_rules exStore1 "tok123" "https://a.com" 0 (by decide) (by decide)
    (by decide)).1 "https://a.com" (by decide) (by decide)

/-! ## C9: remove-website has no plan-tier gate -/

/-- Overwrite the plan cell (column G, index 6) of data row `i` of the
Customers sheet: the store update a provisioning process would perform to
change a customer's plan tier. -/
def setPlanCell (store : Store) (i : Nat) (p : String) : Store :=
  applyWrite store ⟨"Customers", i + 1, 6, p⟩

/-- Replacing a list element by one on which the predicate agrees does not
change `findIdx?`. -/
theorem findIdx?_set_congr {α : Type} (p : α → Bool) (d : α) :
    ∀ (l : List α) (k : Nat) (a : α), p a = p (l.getD k d) → ∀ (s : Nat),
    List.findIdx? p (l.set k a) s = List.findIdx? p l s := by
  intro l
  induction l with
  | nil => intro k a _ s; rfl
  | cons x xs ih =>
    intro k a h s
    cases k with
    | zero =>
      simp only [List.getD_cons_zero] at h
      simp only [List.set_cons_zero, List.findIdx?_cons, h]
    | succ k =>
      simp only [List.getD_cons_succ] at h
      simp only [List.set_cons_succ, List.findIdx?_cons]
      rw [ih k a h]

/-- Cell reads at a column other than 6 are unchanged by overwriting
column 6 of any row. -/
theorem getD_set_getD (data : List Row) (i j : Nat) (p : String) (c : Nat) (hc : c ≠ 6) :
    ((data.set i ((data.getD i []).set 6 p)).getD j []).getD c ""
      = (data.getD j []).getD c "" := by
  by_cases hij : i = j
  · subst hij
    by_cases hlen : i < data.length
    · rw [List.getD_eq_getElem?_getD (data.set i ((data.getD i []).set 6 p)),
        List.getElem?_set_self hlen]
      simp only [Option.getD_some]
      rw [List.getD_eq_getElem?_getD ((data.getD i []).set 6 p),
        List.getElem?_set_ne (Ne.symm hc), ← List.getD_eq_getElem?_getD]
    · rw [List.set_eq_of_length_le (Nat.le_of_not_lt hlen)]
  · rw [List.getD_eq_getElem?_getD (data.set i ((data.getD i []).set 6 p)),
      List.getElem?_set_ne hij, ← List.getD_eq_getElem?_getD]

/-- The outcome of the remove-website handler does not depend on the plan
cell: overwriting column G of any data row leaves its result unchanged. -/
theorem remove_plan_invariant (store : Store) (token remove_url : String)
    (i : Nat) (p : String) :
    removeWebsite (setPlanCell store i p) token remove_url
      = removeWebsite store token remove_url := by
  unfold removeWebsite
  by_cases hmt : token = "" ∨ remove_url = ""
  · simp [hmt]
  · simp only [hmt, if_false]
    have hrows : (setPlanCell store i p) "Customers"
        = setCell (store "Customers") (i + 1) 6 p := by
      simp [setPlanCell, applyWrite]
    rw [hrows]
    have hdrop : (setCell (store "Customers") (i + 1) 6 p).drop 1
        = ((store "Customers").drop 1).set i
            ((((store "Customers").drop 1).getD i []).set 6 p) := by
      unfold setCell
      rw [List.drop_set]
      have hget : (store "Customers").getD (i+1) []
          = ((store "Customers").drop 1).getD i [] := by
        rw [List.getD_eq_getElem?_getD, List.getD_eq_getElem?_getD, List.getElem?_drop]
        rw [Nat.add_comm]
      simp [hget]
    rw [hdrop]
    have hpred : (fun (row : Row) => decide (row.get? 13 = some token))
          ((((store "Customers").drop 1).getD i []).set 6 p)
        = (fun (row : Row) => decide (row.get? 13 = some token))
          (((store "Customers").drop 1).getD i []) := by
      simp only [List.get?_eq_getElem?]
      rw [List.getElem?_set_ne (by omega)]
    rw [findIdx?_set_congr _ [] ((store "Customers").drop 1) i _ hpred 0]
    cases hfind : List.findIdx? (fun row => decide (row.get? 13 = some token))
        ((store "Customers").drop 1) with
    | none => rfl
    | some j =>
      have hc := getD_set_getD ((store "Customers").drop 1) i j p 5 (by omega)
      simp only [hc]

/-- C9: the remove-website handler enforces no plan-tier gate: it can never
return `planRequired`, and its entire outcome is invariant under overwriting
the matched (indeed, any) customer's plan cell with an arbitrary value;
by contrast, the add-website handler rejects a matched customer whose plan
is not `professional` with `planRequired`. -/
theorem C9_remove_no_plan_check :
    (∀ (store : Store) (token remove_url : String),
      (removeWebsite store token remove_url).response ≠ .error .planRequired) ∧
    (∀ (store : Store) (token remove_url : String) (i : Nat) (p : String),
      removeWebsite (setPlanCell store i p) token remove_url
        = removeWebsite store token remove_url) ∧
    (∀ (v : String → Bool) (store : Store) (token new_url : String) (i : Nat),
      token ≠ "" → new_url ≠ "" →
      ((store "Customers").drop 1).findIdx?
        (fun row => row.get? 13 = some token) = some i →
      (((store "Customers").drop 1).getD i []).getD 6 "" ≠ "professional" →
      (addWebsite v store token new_url).response = .error .planRequired) := by
  refine ⟨?_, ?_, ?_⟩
  · intro store token remove_url
    unfold removeWebsite
    dsimp only
    split
    · simp
    · split
      · simp
      · split
        · simp
        · split
          · simp
          · simp
  · intro store token remove_url i p
    exact remove_plan_invariant store token remove_url i p
  · intro v store token new_url i htok hurl hfind hplan
    unfold addWebsite
    simp only [htok, hurl, or_self, if_false, hfind]
    simp at hplan
    simp [hplan]

/-- Witness for C9: on a store whose customer is on the free plan, remove
still succeeds in mutating the list and never reports `planRequired`,
while add on the same free-plan customer is rejected with `planRequired`. -/
theorem C9_remove_no_plan_check_witness :
    (removeWebsite (setPlanCell exStore2 0 "free") "tok123" "https://b.com"
      = removeWebsite exStore2 "tok123" "https://b.com") ∧
    (removeWebsite exStore2 "tok123" "https://b.com").response
      ≠ .error .planRequired ∧
    (removeWebsite (setPlanCell exStore2 0 "free") "tok123" "https://b.com").response
      = .ok ["https://a.com"] ∧
    (addWebsite (fun _ => true) exStore1 "tok123" "https://b.com").response
      = .error .planRequired :=
  ⟨C9_remove_no_plan_check.2.1 exStore2 "tok123" "https://b.com" 0 "free",
   C9_remove_no_plan_check.1 exStore2 "tok123" "https://b.com",
   by decide,
   C9_remove_no_plan_check.2.2 (fun _ => true) exStore1 "tok123" "https://b.com" 0
     (by decide) (by decide) (by decide) (by decide)⟩

/-! ## C10: frame property of successful mutations -/

/-- The write list `ws` consists of exactly one update, to column F
(index 5) of data row `i` (full-row index `i + 1`) of the Customers sheet,
and applying it leaves every other sheet, every other row, and every other
cell of that row unchanged. -/
def WritesExactlyCellF (store : Store) (ws : List CellWrite) (i : Nat)
    (value : String) : Prop :=
  ws = [⟨"Customers", i + 1, 5, value⟩] ∧
  (∀ s, s ≠ "Customers" → applyWrites store ws s = store s) ∧
  (∀ k, k ≠ i + 1 →
    (applyWrites store ws "Customers").get? k = (store "Customers").get? k) ∧
  (∀ c, c ≠ 5 →
    ((applyWrites store ws "Customers").getD (i + 1) []).get? c
      = ((store "Customers").getD (i + 1) []).get? c)

/-- A single-cell write touches no other sheet, row, or column. -/
theorem applyWrite_frame (store : Store) (sheet : String) (ri ci : Nat)
    (val : String) :
    (∀ s, s ≠ sheet → applyWrites store [⟨sheet, ri, ci, val⟩] s = store s) ∧
    (∀ k, k ≠ ri →
      (applyWrites store [⟨sheet, ri, ci, val⟩] sheet).get? k
        = (store sheet).get? k) ∧
    (∀ c, c ≠ ci →
      ((applyWrites store [⟨sheet, ri, ci, val⟩] sheet).getD ri []).get? c
        = ((store sheet).getD ri []).get? c) := by
  have h1 : applyWrites store [⟨sheet, ri, ci, val⟩] sheet
      = (store sheet).set ri (((store sheet).getD ri []).set ci val) := by
    simp [applyWrites, applyWrite, setCell]
  refine ⟨?_, ?_, ?_⟩
  · intro s hs
    simp [applyWrites, applyWrite, hs]
  · intro k hk
    rw [h1, List.get?_eq_getElem?, List.get?_eq_getElem?,
      List.getElem?_set_ne (Ne.symm hk)]
  · intro c hc
    rw [h1]
    by_cases hlen : ri < (store sheet).length
    · rw [List.getD_eq_getElem?_getD
        ((store sheet).set ri (((store sheet).getD ri []).set ci val)),
        List.getElem?_set_self hlen]
      simp only [Option.getD_some]
      rw [List.get?_eq_getElem?, List.get?_eq_getElem?,
        List.getElem?_set_ne (Ne.symm hc)]
    · rw [List.set_eq_of_length_le (Nat.le_of_not_lt hlen)]

/-- A successful add finds the customer row and issues exactly the one
column-F write of the comma-joined updated list. -/
theorem add_success_shape (v : String → Bool) (store : Store)
    (token new_url : String) (l : List String) (ws : List CellWrite)
    (h : addWebsite v store token new_url = ⟨.ok l, ws⟩) :
    ∃ i, ((store "Customers").drop 1).findIdx?
        (fun row => row.get? 13 = some token) = some i ∧
      ws = [⟨"Customers", i + 1, 5, joinComma l⟩] := by
  unfold addWebsite at h
  dsimp only at h
  split at h
  · simp at h
  · split at h
    · simp at h
    · rename_i i heq
      split at h
      · simp at h
      · split at h
        · simp at h
        · split at h
          · simp at h
          · split at h
            · simp at h
            · simp only [MutResult.mk.injEq, Except.ok.injEq] at h
              exact ⟨i, heq, by rw [← h.1, ← h.2]⟩

/-- A successful remove finds the customer row and issues exactly the one
column-F write of the comma-joined updated list. -/
theorem remove_success_shape (store : Store) (token remove_url : String)
    (l : List String) (ws : List CellWrite)
    (h : removeWebsite store token remove_url = ⟨.ok l, ws⟩) :
    ∃ i, ((store "Customers").drop 1).findIdx?
        (fun row => row.get? 13 = some token) = some i ∧
      ws = [⟨"Customers", i + 1, 5, joinComma l⟩] := by
  unfold removeWebsite at h
  dsimp only at h
  split at h
  · simp at h
  · split at h
    · simp at h
    · rename_i i heq
      split at h
      · simp at h
      · split at h
        · simp at h
        · simp only [MutResult.mk.injEq, Except.ok.injEq] at h
          exact ⟨i, heq, by rw [← h.1, ← h.2]⟩

/-- C10: every successful add-website or remove-website call writes exactly
one cell — column F of the matched customer's row in the Customers sheet —
and every other column of that row, every other row, and every other sheet
are unchanged by applying the write. -/
theorem C10_mutation_frame :
    (∀ (v : String → Bool) (store : Store) (token new_url : String)
       (l : List String) (ws : List CellWrite),
      addWebsite v store token new_url = ⟨.ok l, ws⟩ →
      ∃ i, ((store "Customers").drop 1).findIdx?
          (fun row => row.get? 13 = some token) = some i ∧
        WritesExactlyCellF store ws i (joinComma l)) ∧
    (∀ (store : Store) (token remove_url : String)
       (l : List String) (ws : List CellWrite),
      removeWebsite store token remove_url = ⟨.ok l, ws⟩ →
      ∃ i, ((store "Customers").drop 1).findIdx?
          (fun row => row.get? 13 = some token) = some i ∧
        WritesExactlyCellF store ws i (joinComma l)) := by
  constructor
  · intro v store token new_url l ws h
    obtain ⟨i, heq, hws⟩ := add_success_shape v store token new_url l ws h
    subst hws
    exact ⟨i, heq, rfl,
      (applyWrite_frame store "Customers" (i + 1) 5 (joinComma l)).1,
      (applyWrite_frame store "Customers" (i + 1) 5 (joinComma l)).2.1,
      (applyWrite_frame store "Customers" (i + 1) 5 (joinComma l)).2.2⟩
  · intro store token remove_url l ws h
    obtain ⟨i, heq, hws⟩ := remove_success_shape store token remove_url l ws h
    subst hws
    exact ⟨i, heq, rfl,
      (applyWrite_frame store "Customers" (i + 1) 5 (joinComma l)).1,
      (applyWrite_frame store "Customers" (i + 1) 5 (joinComma l)).2.1,
      (applyWrite_frame store "Customers" (i + 1) 5 (joinComma l)).2.2⟩

/-- Witness for C10: a concrete successful add on the two-site store issues
exactly the single column-F write and leaves the rest of the store intact. -/
theorem C10_mutation_frame_witness :
    addWebsite (fun _ => true) exStore2 "tok123" "https://c.com"
      = ⟨.ok ["https://a.com", "https://b.com", "https://c.com"],
         [⟨"Customers", 1, 5, "https://a.com,https://b.com,https://c.com"⟩]⟩ ∧
    (∃ i, ((exStore2 "Customers").drop 1).findIdx?
        (fun row => row.get? 13 = some "tok123") = some i ∧
      WritesExactlyCellF exStore2
        [⟨"Customers", 1, 5, "https://a.com,https://b.com,https://c.com"⟩] i
        (joinComma ["https://a.com", "https://b.com", "https://c.com"])) :=
  ⟨by decide,
   C10_mutation_frame.1 (fun _ => true) exStore2 "tok123" "https://c.com"
     ["https://a.com", "https://b.com", "https://c.com"]
     [⟨"Customers", 1, 5, "https://a.com,https://b.com,https://c.com"⟩]
     (by decide)⟩

/-! ## C1: legacy token authentication has no expiry semantics -/

inductive LegacyAuthResult
  | ok (row : Row)      -- 200 with the matched customer row
  | missingCredential   -- 400 "Authentication required. Use ?token=... or ?id=..."
  | invalidToken        -- 404 "Invalid or expired token"
  | customerNotFound    -- 404 "Customer ... not found"
  | expired             -- 401 "Token expired": never produced by the source;
                        -- this is the response the repository's own
                        -- session-timeout-fix.md plan proposes to add
deriving DecidableEq, Repr

/-- Legacy authentication of `src/api/customer-data.js` (GET
/api/customer-data, lines 21-62): the bearer form matches the on-file token
in column L (index 11), the identifier form matches column A (index 0).
No clock is consulted anywhere on this path, so the embedding takes no
`now` parameter: the handler's result cannot depend on the request time. -/
def legacyAuthenticate (store : Store) (token customerId : String) :
    LegacyAuthResult :=
  if token = "" ∧ customerId = "" then .missingCredential
  else if token ≠ "" then
    match ((store "Customers").drop 1).find?
        (fun row => row.get? 11 = some token) with
    | some row => .ok row
    | none => .invalidToken
  else
    match ((store "Customers").drop 1).find?
        (fun row => row.get? 0 = some customerId) with
    | some row => .ok row
    | none => .customerNotFound

/-- Modelled from the spec: section 4.3 requires every successful legacy
lookup, regardless of form, to be rejected with `Expired` whenever
`now - issued_at > 3600` seconds, where `issued_at` is the stored issuance
timestamp of the bearer token — a value the source neither stores nor
reads. -/
def specLegacyAuthenticate (store : Store) (issuedAt now : Int)
    (token customerId : String) : LegacyAuthResult :=
  match legacyAuthenticate store token customerId with
  | .ok row => if now - issuedAt > 3600 then .expired else .ok row
  | e => e

/-- Customer row in the 12-column layout of the customer-data handler
(bearer token in column L, index 11). -/
def exRowL : Row :=
  ["CUST001", "a@b.c", "Acme", "https://a.com", "free", "weekly",
   "2024-01-01", "2025-01-03", "90", "active", "x", "tokL"]

def exStoreL : Store := mkCustomersStore exRowL

/-- C1: the legacy authenticator can never answer `expired` — its result
type-checks against a response space that includes the documented expiry
rejection, yet no input produces it — and at the failing input (token
issued 7200 s before the request) the code returns the customer while the
spec-modelled behaviour returns `expired`. -/
theorem C1_legacy_auth_never_expires :
    (∀ (store : Store) (token customerId : String),
      legacyAuthenticate store token customerId ≠ .expired) ∧
    legacyAuthenticate exStoreL "tokL" "" = .ok exRowL ∧
    specLegacyAuthenticate exStoreL 0 7200 "tokL" "" = .expired := by
  refine ⟨?_, by decide, by decide⟩
  intro store token customerId
  unfold legacyAuthenticate
  split
  · simp
  · split
    · split
      all_goals simp
    · split
      all_goals simp

/-! ## C8: violation-to-scan identifier matching -/

/-- Violation filter of the current /api/customer-data handler
(`src/api/customer-data.js` lines 136-161): a row with fewer than 2 columns
is dropped, and the scan id in column B is compared with the latest scan id
after coercion to string (the identity on sheet cells, which arrive as
strings) and trimming. -/
def violationsNormalized (violationData : List Row) (latestScanId : String) :
    List Row :=
  violationData.filter (fun row =>
    if row.length < 2 then false
    else jsTrim (row.getD 1 "") = jsTrim latestScanId)

/-- Violation filter of the older customer-data variant
(`src/api/customer-data.js` lines 330-334), of the aggregation bundled in
`src/api/validate-session.js` (lines 180-183), and of
`src/api/professional-data.js` (line 104): raw strict equality
`row[1] === latestScanId`. -/
def violationsRaw (violationData : List Row) (latestScanId : String) :
    List Row :=
  violationData.filter (fun row => row.get? 1 = some latestScanId)

/-- Violation row whose scan-id cell carries a trailing space, as produced
by type-inconsistent upstream data entry. -/
def vrowSpaced : Row :=
  ["V1", "SCAN001 ", "CUST001", "https://a.com", "image-alt", "critical",
   "Image missing alternative text", "img.hero", "https://h.example", "open",
   "2025-01-03", ""]

/-- C8: the current customer-data matcher includes a violation row exactly
when the trimmed string forms of the two scan ids agree; at the failing
input (stored scan id with a trailing space) it includes the row, while
the raw strict-equality matcher used by the other aggregation variants
excludes it. -/
theorem C8_violation_matching_divergence :
    (∀ (violationData : List Row) (latestScanId : String) (row : Row),
      row ∈ violationsNormalized violationData latestScanId ↔
        row ∈ violationData ∧ ¬ row.length < 2 ∧
          jsTrim (row.getD 1 "") = jsTrim latestScanId) ∧
    violationsNormalized [vrowSpaced] "SCAN001" = [vrowSpaced] ∧
    violationsRaw [vrowSpaced] "SCAN001" = [] := by
  refine ⟨?_, by decide, by decide⟩
  intro violationData latestScanId row
  unfold violationsNormalized
  rw [List.mem_filter]
  constructor
  · rintro ⟨hm, hp⟩
    refine ⟨hm, ?_⟩
    by_cases hl : row.length < 2
    · rw [if_pos hl] at hp
      exact absurd hp (by simp)
    · rw [if_neg hl] at hp
      exact ⟨hl, of_decide_eq_true hp⟩
  · rintro ⟨hm, hl, he⟩
    refine ⟨hm, ?_⟩
    rw [if_neg hl]
    exact decide_eq_true he

/-! ## C6: subscription cancellation date

Embedded from the cancel-subscription handler (`src/unnamed/part_001`,
POST /api/cancel-subscription).  The handler parses `current_period_end`
with `new Date(...)`, adds one day with `setDate(getDate() + 1)` and
formats with `toISOString().split('T')[0]`; serverless functions run in
UTC, where this sequence is pure calendar arithmetic on the parsed
year/month/day. -/

structure Date where
  year : Nat
  month : Nat
  day : Nat
deriving DecidableEq, Repr

def isLeapYear (y : Nat) : Bool := (y % 4 = 0 ∧ y % 100 ≠ 0) ∨ y % 400 = 0

def daysInMonth (y m : Nat) : Nat :=
  if m = 2 then (if isLeapYear y then 29 else 28)
  else if m = 4 ∨ m = 6 ∨ m = 9 ∨ m = 11 then 30
  else 31

def validDate (d : Date) : Bool :=
  1 ≤ d.month ∧ d.month ≤ 12 ∧ 1 ≤ d.day ∧ d.day ≤ daysInMonth d.year d.month

def natOfDigits : List Char → Nat → Nat
  | [], acc => acc
  | c :: rest, acc => natOfDigits rest (acc * 10 + (c.toNat - 48))

/-- Parse of `new Date(s)` for a date-only string: ECMA-262 accepts the
ISO form YYYY-MM-DD (exact digit counts) at UTC midnight and yields an
Invalid Date for out-of-range components such as "2025-02-30".  Strings in
other formats fall to implementation-defined parsing the repository does
not rely on; they are modelled as invalid. -/
def parseDateYMD (s : String) : Option Date :=
  match jsSplit s '-' with
  | [ys, ms, ds] =>
    if ys.data.length = 4 ∧ ms.data.length = 2 ∧ ds.data.length = 2 ∧
        (ys.data ++ ms.data ++ ds.data).all Char.isDigit then
      let d : Date := ⟨natOfDigits ys.data 0, natOfDigits ms.data 0,
        natOfDigits ds.data 0⟩
      if validDate d then some d else none
    else none
  | _ => none

def digitChar (n : Nat) : Char := Char.ofNat (48 + n % 10)

def format2 (n : Nat) : List Char := [digitChar (n / 10), digitChar n]

def format4 (n : Nat) : List Char :=
  [digitChar (n / 1000), digitChar (n / 100), digitChar (n / 10), digitChar n]

/-- `toISOString().split('T')[0]` for a UTC calendar date. -/
def formatDate (d : Date) : String :=
  String.mk (format4 d.year ++ '-' :: format2 d.month ++ '-' :: format2 d.day)

/-- `setDate(getDate() + 1)`: ECMA-262 MakeDay normalizes a day-of-month
overflow into the following month; `day + 1` overflows by at most one. -/
def jsSetDateSucc (d : Date) : Date :=
  let t := d.day + 1
  if t ≤ daysInMonth d.year d.month then ⟨d.year, d.month, t⟩
  else if d.month = 12 then ⟨d.year + 1, 1, t - daysInMonth d.year 12⟩
  else ⟨d.year, d.month + 1, t - daysInMonth d.year d.month⟩

/-- Modelled from the spec: "the calendar day after `current_period_end`"
(sections 3 and 4.6). -/
def calendarNextDay (d : Date) : Date :=
  if d.day < daysInMonth d.year d.month then ⟨d.year, d.month, d.day + 1⟩
  else if d.month < 12 then ⟨d.year, d.month + 1, 1⟩
  else ⟨d.year + 1, 1, 1⟩

/-- On valid dates the JS day-increment agrees with the calendar
successor. -/
theorem jsSetDateSucc_eq_calendarNextDay (d : Date) (h : validDate d = true) :
    jsSetDateSucc d = calendarNextDay d := by
  unfold validDate at h
  simp at h
  obtain ⟨h1, h2, h3, h4⟩ := h
  unfold jsSetDateSucc calendarNextDay
  by_cases hd : d.day < daysInMonth d.year d.month
  · rw [if_pos (by omega), if_pos hd]
  · have hde : d.day = daysInMonth d.year d.month := by omega
    rw [if_neg (by omega), if_neg hd]
    by_cases hm : d.month = 12
    · rw [if_pos hm, if_neg (by omega)]
      have hd12 : d.day = daysInMonth d.year 12 := by rw [← hm]; exact hde
      have h1d : d.day + 1 - daysInMonth d.year 12 = 1 := by omega
      rw [h1d]
    · rw [if_neg hm, if_pos (by omega)]
      have h1d : d.day + 1 - daysInMonth d.year d.month = 1 := by omega
      rw [h1d]

inductive CancelError
  | missingFields        -- 400 "Missing required fields: customer_id and current_period_end"
  | invalidDate          -- 500: toISOString() throws on an Invalid Date
  | subscriptionNotFound -- 404 "Subscription not found for this customer"
deriving DecidableEq, Repr

structure CancelResult where
  response : Except CancelError (String × String)  -- (cancellation_date, status)
  writes : List CellWrite
deriving DecidableEq, Repr

/-- Handler of the cancel-subscription endpoint: the cancellation date is
computed before the sheet fetch (an unparseable date throws at
`toISOString()` first); the row is matched on customer_id in column A and
the batch update writes "cancelled" to column E (index 4) and the date to
column J (index 9). -/
def cancelSubscription (store : Store)
    (customer_id current_period_end : String) : CancelResult :=
  if customer_id = "" ∨ current_period_end = "" then ⟨.error .missingFields, []⟩
  else
    match parseDateYMD current_period_end with
    | none => ⟨.error .invalidDate, []⟩
    | some d =>
      let formatted := formatDate (jsSetDateSucc d)
      let dataRows := (store "Subscriptions").drop 1
      match dataRows.findIdx? (fun row => row.get? 0 = some customer_id) with
      | none => ⟨.error .subscriptionNotFound, []⟩
      | some rowIndex =>
        ⟨.ok (formatted, "cancelled"),
         [⟨"Subscriptions", rowIndex + 1, 4, "cancelled"⟩,
          ⟨"Subscriptions", rowIndex + 1, 9, formatted⟩]⟩

/-- A successful parse only returns valid dates. -/
theorem parseDateYMD_valid (s : String) (d : Date)
    (h : parseDateYMD s = some d) : validDate d = true := by
  unfold parseDateYMD at h
  split at h
  · split at h
    · dsimp only at h
      split at h
      · rename_i hv
        cases h
        exact hv
      · cases h
    · cases h
  · cases h

/-- C6: a cancel call that finds a matching subscription row returns and
writes status "cancelled" together with a cancellation date equal to the
calendar day after `current_period_end`. -/
theorem C6_cancellation_date (store : Store)
    (customer_id current_period_end : String) (d : Date) (i : Nat)
    (hid : customer_id ≠ "")
    (hdate : parseDateYMD current_period_end = some d)
    (hfind : ((store "Subscriptions").drop 1).findIdx?
      (fun row => row.get? 0 = some customer_id) = some i) :
    cancelSubscription store customer_id current_period_end
      = ⟨.ok (formatDate (calendarNextDay d), "cancelled"),
         [⟨"Subscriptions", i + 1, 4, "cancelled"⟩,
          ⟨"Subscriptions", i + 1, 9, formatDate (calendarNextDay d)⟩]⟩ := by
  have hvalid := parseDateYMD_valid current_period_end d hdate
  have hne : current_period_end ≠ "" := by
    intro hc
    rw [hc] at hdate
    simp [parseDateYMD, jsSplit, splitChar] at hdate
  unfold cancelSubscription
  simp only [hid, hne, or_self, if_false, hdate]
  rw [jsSetDateSucc_eq_calendarNextDay d hvalid]
  simp only [hfind]

/-- Subscription row: columns A..J as in the Subscriptions sheet, with
`current_period_end` in column G. -/
def exSubRow : Row :=
  ["CUST001", "cus_x", "sub_x", "professional", "active",
   "2025-02-15", "2025-03-15", "49", "2024-12-01", ""]

def exSubStore : Store :=
  fun s => if s = "Subscriptions" then [["customer_id"], exSubRow] else []

/-- Witness for C6: cancel(CUST001, "2025-03-15") yields cancellation date
"2025-03-16" and status "cancelled", writing exactly those two cells. -/
theorem C6_cancellation_date_witness :
    cancelSubscription exSubStore "CUST001" "2025-03-15"
      = ⟨.ok ("2025-03-16", "cancelled"),
         [⟨"Subscriptions", 1, 4, "cancelled"⟩,
          ⟨"Subscriptions", 1, 9, "2025-03-16"⟩]⟩ := by
  have h := C6_cancellation_date exSubStore "CUST001" "2025-03-15"
    ⟨2025, 3, 15⟩ 0 (by decide) (by decide) (by decide)
  rw [h]
  decide

/-! ## C7: dashboard historical series and score

Embedded from the current /api/customer-data handler
(`src/api/customer-data.js`, lines 106-121 and 181-190): scans are filtered
on customer_id (column B, index 1), sorted descending on the parsed scan
date (column K, index 10) by the stable `Array.prototype.sort`, the latest
scan's compliance score (column E, index 4) becomes `score`, and the last
10 scans, reversed to oldest-first, become `historical`. -/

/-- `takeDigits` collects the longest leading run of decimal digits. -/
def takeDigits : List Char → List Char
  | [] => []
  | c :: rest => if c.isDigit then c :: takeDigits rest else []

/-- `parseInt(s) || 0` for decimal cell values: skip leading whitespace,
optional sign, then the longest digit prefix; absence of digits gives NaN,
which `|| 0` collapses to 0 (as it does a parsed 0).  The hexadecimal `0x`
form never occurs in score cells and is not modelled. -/
def jsParseIntOr0 (s : String) : Int :=
  match s.data.dropWhile isJsWs with
  | '-' :: rest =>
    let ds := takeDigits rest
    if ds = [] then 0 else -(natOfDigits ds 0 : Int)
  | '+' :: rest =>
    let ds := takeDigits rest
    if ds = [] then 0 else (natOfDigits ds 0 : Int)
  | cs =>
    let ds := takeDigits cs
    if ds = [] then 0 else (natOfDigits ds 0 : Int)

/-- Order key of `new Date(cell)` for the calendar-date cells the scanner
writes (an ISO date, optionally with a `T...` time suffix, whose date part
orders the timestamps): an order-embedding of the parsed date.  A cell
`new Date` cannot parse is keyed 0, mirroring nothing meaningful — the
ordering facts below are stated relative to this key. -/
def dateKey (s : String) : Int :=
  match parseDateYMD (String.mk (s.data.takeWhile (fun c => c ≠ 'T'))) with
  | some d => (d.year : Int) * 10000 + (d.month : Int) * 100 + (d.day : Int)
  | none => 0

def scanDateKey (row : Row) : Int := dateKey (row.getD 10 "")

/-- `scanData.filter(row => row[1] === actualCustomerId)`. -/
def customerScansOf (scanData : List Row) (custId : String) : List Row :=
  scanData.filter (fun row => row.get? 1 = some custId)

/-- Comparator model: `scanBefore a b` holds when the sort comparator
`new Date(b[10]) - new Date(a[10])` allows `a` to stay before `b`,
i.e. the dates are in descending order. -/
def scanBefore (a b : Row) : Prop := scanDateKey b ≤ scanDateKey a

instance : DecidableRel scanBefore := fun _ _ => Int.decLe _ _

instance : IsTotal Row scanBefore :=
  ⟨fun a b => le_total (scanDateKey b) (scanDateKey a)⟩

instance : IsTrans Row scanBefore :=
  ⟨fun _ _ _ hab hbc => le_trans hbc hab⟩

/-- `customerScans.sort((a, b) => new Date(b[10]) - new Date(a[10]))`:
a stable sort, descending on the scan date. -/
def sortScansDesc (scans : List Row) : List Row :=
  scans.insertionSort scanBefore

/-- One `historical` entry: `{date: scan[10], score: parseInt(scan[4]) || 0}`. -/
def toHistEntry (row : Row) : String × Int :=
  (row.getD 10 "", jsParseIntOr0 (row.getD 4 ""))

/-- `customerScans.slice(0, 10).reverse().map(...)`. -/
def historicalOf (scanData : List Row) (custId : String) : List (String × Int) :=
  (((sortScansDesc (customerScansOf scanData custId)).take 10).reverse).map toHistEntry

/-- `latestScan ? parseInt(latestScan[4]) || 0 : 0`. -/
def scoreOf (scanData : List Row) (custId : String) : Int :=
  match (sortScansDesc (customerScansOf scanData custId)).head? with
  | some r => jsParseIntOr0 (r.getD 4 "")
  | none => 0

/-- Scan-summary row in the 13-column layout (scan_id, customer_id,
website_url, pages, score, total, critical, serious, moderate, minor,
scan_date, duration, status). -/
def exScan (sid dt sc : String) : Row :=
  [sid, "CUST001", "https://a.com", "12", sc, "3", "1", "1", "1", "0", dt,
   "45", "completed"]

/-- Three scans dated ascending with scores 70, 80, 90. -/
def ex3Scans : List Row :=
  [exScan "S1" "2025-01-01" "70", exScan "S2" "2025-01-02" "80",
   exScan "S3" "2025-01-03" "90"]

/-- C7: the historical series holds the last 10 (or fewer) of the
customer's scans as (date, score) pairs ordered oldest to newest: its
length is `min 10` the number of scans, it is ascending in the date key,
every entry comes from one of the customer's scans, every scan left out of
the window is no newer than every scan in it, and the payload score is the
score of the most recent scan; on three ascending scans scored 70/80/90 the
series is exactly those three and the score is 90. -/
theorem C7_historical_series (scanData : List Row) (custId : String) :
    (historicalOf scanData custId).length
      = min 10 (customerScansOf scanData custId).length ∧
    List.Pairwise (fun a b => dateKey a.1 ≤ dateKey b.1)
      (historicalOf scanData custId) ∧
    (∀ pr ∈ historicalOf scanData custId,
      ∃ r ∈ customerScansOf scanData custId, pr = toHistEntry r) ∧
    (∀ dropped ∈ (sortScansDesc (customerScansOf scanData custId)).drop 10,
      ∀ taken ∈ (sortScansDesc (customerScansOf scanData custId)).take 10,
        scanDateKey dropped ≤ scanDateKey taken) ∧
    (∀ latest,
      (sortScansDesc (customerScansOf scanData custId)).head? = some latest →
      scoreOf scanData custId = jsParseIntOr0 (latest.getD 4 "") ∧
      ∀ r ∈ customerScansOf scanData custId, scanDateKey r ≤ scanDateKey latest) ∧
    (historicalOf ex3Scans "CUST001"
       = [("2025-01-01", 70), ("2025-01-02", 80), ("2025-01-03", 90)] ∧
     scoreOf ex3Scans "CUST001" = 90) := by
  have hsorted : List.Pairwise scanBefore
      (sortScansDesc (customerScansOf scanData custId)) :=
    List.sorted_insertionSort scanBefore (customerScansOf scanData custId)
  have hperm : (sortScansDesc (customerScansOf scanData custId)).Perm
      (customerScansOf scanData custId) :=
    List.perm_insertionSort scanBefore (customerScansOf scanData custId)
  refine ⟨?_, ?_, ?_, ?_, ?_, by decide, by decide⟩
  · unfold historicalOf
    rw [List.length_map, List.length_reverse, List.length_take, hperm.length_eq]
  · unfold historicalOf
    rw [List.pairwise_map, List.pairwise_reverse]
    exact List.Pairwise.sublist (List.take_sublist 10 _) hsorted
  · intro pr hpr
    unfold historicalOf at hpr
    obtain ⟨r, hr, rfl⟩ := List.mem_map.mp hpr
    rw [List.mem_reverse] at hr
    have hrs : r ∈ sortScansDesc (customerScansOf scanData custId) :=
      (List.take_sublist 10 _).mem hr
    exact ⟨r, hperm.mem_iff.mp hrs, rfl⟩
  · intro dropped hdrop taken htake
    have hsplit := List.take_append_drop 10
      (sortScansDesc (customerScansOf scanData custId))
    rw [← hsplit] at hsorted
    exact (List.pairwise_append.mp hsorted).2.2 taken htake dropped hdrop
  · intro latest hlatest
    obtain ⟨rest, hrest⟩ := List.head?_eq_some_iff.mp hlatest
    constructor
    · unfold scoreOf
      rw [hlatest]
    · intro r hr
      have hrs : r ∈ sortScansDesc (customerScansOf scanData custId) :=
        hperm.mem_iff.mpr hr
      rw [hrest] at hrs hsorted
      rcases List.mem_cons.mp hrs with h | h
      · rw [h]
      · exact (List.pairwise_cons.mp hsorted).1 r h

/-- Witness for C7 at the three-scan example store. -/
theorem C7_historical_series_witness :
    (∀ latest,
      (sortScansDesc (customerScansOf ex3Scans "CUST001")).head? = some latest →
      scoreOf ex3Scans "CUST001" = jsParseIntOr0 (latest.getD 4 "") ∧
      ∀ r ∈ customerScansOf ex3Scans "CUST001",
        scanDateKey r ≤ scanDateKey latest) ∧
    historicalOf ex3Scans "CUST001"
      = [("2025-01-01", 70), ("2025-01-02", 80), ("2025-01-03", 90)] :=
  ⟨(C7_historical_series ex3Scans "CUST001").2.2.2.2.1,
   (C7_historical_series ex3Scans "CUST001").2.2.2.2.2.1⟩

/-! ## C2, C3: Token Codec and Session Authenticator

The validate-session endpoint in the provided sources
(`src/api/validate-session.js`) delegates verification to a remote webhook;
the HMAC-verifying variant the spec designates as canonical is not among
the provided files.  The codec and the authenticator are therefore modelled
from the spec (sections 4.1 and 4.2).  HMAC-SHA256 itself and claims-JSON
parsing are standard primitives the spec does not define; they are
parameters of the model. -/

def b64Alphabet : List Char :=
  "ABCDEFGHIJKLMNOPQRSTUVWXYZabcdefghijklmnopqrstuvwxyz0123456789-_".data

def b64Char (n : Nat) : Char := b64Alphabet.getD n 'A'

/-- Unpadded base64url encoding of a byte sequence, three bytes to four
characters, with the standard 1- and 2-byte tails. -/
def b64urlEncodeCore : List Nat → List Char
  | [] => []
  | [a] => [b64Char (a / 4 % 64), b64Char (a % 4 * 16)]
  | [a, b] => [b64Char (a / 4 % 64), b64Char (a % 4 * 16 + b / 16),
               b64Char (b % 16 * 4)]
  | a :: b :: c :: rest =>
    b64Char (a / 4 % 64) :: b64Char (a % 4 * 16 + b / 16) ::
      b64Char (b % 16 * 4 + c / 64) :: b64Char (c % 64) :: b64urlEncodeCore rest

def b64urlEncode (bytes : List Nat) : String :=
  String.mk (b64urlEncodeCore bytes)

def b64Index (c : Char) : Option Nat := b64Alphabet.findIdx? (fun x => x = c)

/-- Unpadded base64url decoding; `none` on a character outside the alphabet
or a leftover length of 1. -/
def b64urlDecodeCore : List Char → Option (List Nat)
  | [] => some []
  | [_] => none
  | [c1, c2] => do
      let a ← b64Index c1
      let b ← b64Index c2
      pure [a * 4 + b / 16]
  | [c1, c2, c3] => do
      let a ← b64Index c1
      let b ← b64Index c2
      let c ← b64Index c3
      pure [a * 4 + b / 16, b % 16 * 16 + c / 4]
  | c1 :: c2 :: c3 :: c4 :: rest => do
      let a ← b64Index c1
      let b ← b64Index c2
      let c ← b64Index c3
      let d ← b64Index c4
      let tail ← b64urlDecodeCore rest
      pure ((a * 4 + b / 16) :: (b % 16 * 16 + c / 4) :: (c % 4 * 64 + d) :: tail)

def b64urlDecode (s : String) : Option (List Nat) := b64urlDecodeCore s.data

/-- Identity claims carried by a signed token (spec section 3): customer
identifier, email, plan, issued-at and expires-at. -/
structure Claims where
  customer_id : String
  email : String
  plan : String
  iat : Option Int
  exp : Option Int
deriving DecidableEq, Repr

inductive DecodeError
  | malformedToken
  | invalidSignature
  | malformedClaims
deriving DecidableEq, Repr

/-- Modelled from the spec: section 4.1's `verify_and_decode(token,
secret)`.  The token must split into exactly three dot-separated base64url
segments (otherwise `malformedToken`); the signature segment must
byte-exactly equal the unpadded base64url encoding of HMAC-SHA256 over
`header ++ "." ++ payload` under the secret (otherwise `invalidSignature`);
the decoded payload must parse as a claims object (otherwise
`malformedClaims`).  `mac` abstracts HMAC-SHA256 and `parse` abstracts
claims parsing; the operation is a pure function and performs no I/O. -/
def verify_and_decode (mac : String → String → List Nat)
    (parse : List Nat → Option Claims) (secret token : String) :
    Except DecodeError Claims :=
  match jsSplit token '.' with
  | [h, p, s] =>
    match b64urlDecode h, b64urlDecode p, b64urlDecode s with
    | some _, some payloadBytes, some _ =>
      if s = b64urlEncode (mac secret (h ++ "." ++ p)) then
        match parse payloadBytes with
        | some c => .ok c
        | none => .error .malformedClaims
      else .error .invalidSignature
    | _, _, _ => .error .malformedToken
  | _ => .error .malformedToken

inductive AuthError
  | malformed
  | invalidSignature
  | expired
  | secretUnavailable
  | customerNotFound
  | revoked
deriving DecidableEq, Repr

structure Identity where
  customer_id : String
  email : String
  plan : String
deriving DecidableEq, Repr

/-- Modelled from the spec: section 4.2's Session Authenticator, steps in
order.  A missing secret → `secretUnavailable`; codec failures propagate
(both malformed cases surface as `malformed`); a missing `exp` claim is
rejected as `malformed`; `exp` earlier than the current time → `expired`;
unknown customer → `customerNotFound`; a token other than the on-file
bearer token → `revoked`; success returns the identity taken from the
claims.  `customers` lists `(customer_id, on-file token)` pairs of the row
store. -/
def sessionAuthenticate (mac : String → String → List Nat)
    (parse : List Nat → Option Claims) (secretOpt : Option String)
    (customers : List (String × String)) (now : Int) (token : String) :
    Except AuthError Identity :=
  match secretOpt with
  | none => .error .secretUnavailable
  | some secret =>
    match verify_and_decode mac parse secret token with
    | .error .malformedToken => .error .malformed
    | .error .malformedClaims => .error .malformed
    | .error .invalidSignature => .error .invalidSignature
    | .ok c =>
      match c.exp with
      | none => .error .malformed
      | some e =>
        if e < now then .error .expired
        else
          match customers.find? (fun r => r.1 = c.customer_id) with
          | none => .error .customerNotFound
          | some r =>
            if r.2 = token then .ok ⟨c.customer_id, c.email, c.plan⟩
            else .error .revoked

/-- Concrete MAC returning the fixed digest `[1, 2, 3]`, whose unpadded
base64url encoding is "AQID". -/
def mac3 : String → String → List Nat := fun _ _ => [1, 2, 3]

/-- Concrete MAC returning the empty digest, encoded as "". -/
def mac0 : String → String → List Nat := fun _ _ => []

def claims0 : Claims := ⟨"CUST001", "a@b.c", "free", some 0, some 1000⟩

/-- Concrete claims parser accepting every payload. -/
def parse0 : List Nat → Option Claims := fun _ => some claims0

/-- C2 counterexample: the token "a!.b." does split into exactly three
dot-separated segments, and its (empty) signature segment byte-exactly
equals the unpadded base64url HMAC of `header ++ "." ++ payload` under the
concrete MAC, yet `verify_and_decode` does not succeed: the header segment
"a!" is not base64url, so the result is `malformedToken`. -/
theorem C2_counterexample_malformed_segment :
    jsSplit "a!.b." '.' = ["a!", "b", ""] ∧
    "" = b64urlEncode (mac0 "secret" ("a!" ++ "." ++ "b")) ∧
    verify_and_decode mac0 parse0 "secret" "a!.b." = .error .malformedToken ∧
    (∀ c, verify_and_decode mac0 parse0 "secret" "a!.b." ≠ .ok c) := by
  refine ⟨by decide, by decide, by decide, ?_⟩
  intro c hc
  rw [show verify_and_decode mac0 parse0 "secret" "a!.b."
      = .error .malformedToken from by decide] at hc
  cases hc

/-- C2 (amended): `verify_and_decode` succeeds exactly when the token
splits into three dot-separated segments that each base64url-decode, the
signature segment byte-exactly equals the unpadded base64url HMAC-SHA256 of
`header ++ "." ++ payload` under the secret, and the decoded payload parses
as a claims object; and a three-segment token of decodable segments whose
signature differs from that value fails with `invalidSignature`.  The
operation is a pure Lean function, so it performs no I/O. -/
theorem verify_and_decode_three (mac : String → String → List Nat)
    (parse : List Nat → Option Claims) (secret token h p s : String)
    (hsplit : jsSplit token '.' = [h, p, s]) :
    verify_and_decode mac parse secret token
      = match b64urlDecode h, b64urlDecode p, b64urlDecode s with
        | some _, some payloadBytes, some _ =>
          if s = b64urlEncode (mac secret (h ++ "." ++ p)) then
            match parse payloadBytes with
            | some c => .ok c
            | none => .error .malformedClaims
          else .error .invalidSignature
        | _, _, _ => .error .malformedToken := by
  unfold verify_and_decode
  rw [hsplit]

/-- C2 (amended): `verify_and_decode` succeeds exactly when the token
splits into three dot-separated segments that each base64url-decode, the
signature segment byte-exactly equals the unpadded base64url HMAC-SHA256 of
`header ++ "." ++ payload` under the secret, and the decoded payload parses
as a claims object; and a three-segment token of decodable segments whose
signature differs from that value fails with `invalidSignature`.  The
operation is a pure Lean function, so it performs no I/O. -/
theorem C2_verify_and_decode_success_iff (mac : String → String → List Nat)
    (parse : List Nat → Option Claims) (secret token : String) :
    ((∃ c, verify_and_decode mac parse secret token = .ok c) ↔
      (∃ h p s, jsSplit token '.' = [h, p, s] ∧
        (b64urlDecode h).isSome = true ∧
        (b64urlDecode s).isSome = true ∧
        s = b64urlEncode (mac secret (h ++ "." ++ p)) ∧
        (∃ bytes, b64urlDecode p = some bytes ∧ (parse bytes).isSome = true))) ∧
    (∀ h p s, jsSplit token '.' = [h, p, s] →
      (b64urlDecode h).isSome = true →
      (b64urlDecode p).isSome = true →
      (b64urlDecode s).isSome = true →
      s ≠ b64urlEncode (mac secret (h ++ "." ++ p)) →
      verify_and_decode mac parse secret token = .error .invalidSignature) := by
  constructor
  · constructor
    · rintro ⟨c, hc⟩
      unfold verify_and_decode at hc
      split at hc
      · rename_i h p s hsplit
        split at hc
        · rename_i w pb w2 hdh hdp hds
          split at hc
          · rename_i hse
            split at hc
            · rename_i c0 hparse
              cases hc
              exact ⟨h, p, s, hsplit, by rw [hdh]; rfl, by rw [hds]; rfl, hse,
                ⟨pb, hdp, by rw [hparse]; rfl⟩⟩
            · cases hc
          · cases hc
        · cases hc
      · cases hc
    · rintro ⟨h, p, s, hsplit, hh, hs, hse, bytes, hp, hparse⟩
      obtain ⟨wh, hwh⟩ := Option.isSome_iff_exists.mp hh
      obtain ⟨ws, hws⟩ := Option.isSome_iff_exists.mp hs
      obtain ⟨c, hcp⟩ := Option.isSome_iff_exists.mp hparse
      refine ⟨c, ?_⟩
      rw [verify_and_decode_three mac parse secret token h p s hsplit,
        hwh, hp, hws]
      dsimp only
      rw [if_pos hse, hcp]
  · intro h p s hsplit hh hp hs hne
    obtain ⟨wh, hwh⟩ := Option.isSome_iff_exists.mp hh
    obtain ⟨wp, hwp⟩ := Option.isSome_iff_exists.mp hp
    obtain ⟨ws, hws⟩ := Option.isSome_iff_exists.mp hs
    rw [verify_and_decode_three mac parse secret token h p s hsplit,
      hwh, hwp, hws]
    dsimp only
    rw [if_neg hne]

/-- Witness for C2: a token whose signature segment is exactly the encoded
MAC verifies and decodes, and flipping the signature segment yields
`invalidSignature`. -/
theorem C2_verify_and_decode_success_iff_witness :
    (∃ c, verify_and_decode mac3 parse0 "secret" "AA.AA.AQID" = .ok c) ∧
    verify_and_decode mac3 parse0 "secret" "AA.AA.AB"
      = .error .invalidSignature :=
  ⟨(C2_verify_and_decode_success_iff mac3 parse0 "secret" "AA.AA.AQID").1.mpr
    ⟨"AA", "AA", "AQID", by decide, by decide, by decide, by decide,
     ⟨[0], by decide, by decide⟩⟩,
   (C2_verify_and_decode_success_iff mac3 parse0 "secret" "AA.AA.AB").2
     "AA" "AA" "AB" (by decide) (by decide) (by decide) (by decide) (by decide)⟩

/-- C3 counterexample: a structurally valid three-segment token whose
claims expired (exp = 1000 < now = 2000) but whose signature segment "AB"
differs from the MAC encoding "AQID" is answered `invalidSignature`, not
`expired`: the section-4.2 algorithm verifies the signature before looking
at expiry. -/
theorem C3_counterexample_invalid_signature_expired :
    jsSplit "AA.AA.AB" '.' = ["AA", "AA", "AB"] ∧
    (b64urlDecode "AA").isSome = true ∧ (b64urlDecode "AB").isSome = true ∧
    parse0 [0] = some claims0 ∧ claims0.exp = some 1000 ∧ ((1000 : Int) < 2000) ∧
    sessionAuthenticate mac3 parse0 (some "secret") [] 2000 "AA.AA.AB"
      = .error .invalidSignature ∧
    sessionAuthenticate mac3 parse0 (some "secret") [] 2000 "AA.AA.AB"
      ≠ .error .expired := by decide

/-- C3 (amended): expiry dominates among signature-valid tokens — whenever
the token verifies and decodes to claims whose exp precedes the current
time, the authenticator answers `expired` irrespective of the customer
table; a token the codec rejects as `invalidSignature` is answered
`invalidSignature` regardless of expiry, because section 4.2 verifies the
signature before checking expiry. -/
theorem C3_expiry_dominates_for_valid_signature (mac : String → String → List Nat)
    (parse : List Nat → Option Claims) (secret : String)
    (customers : List (String × String)) (now : Int) (token : String) :
    (∀ c e, verify_and_decode mac parse secret token = .ok c →
      c.exp = some e → e < now →
      sessionAuthenticate mac parse (some secret) customers now token
        = .error .expired) ∧
    (verify_and_decode mac parse secret token = .error .invalidSignature →
      sessionAuthenticate mac parse (some secret) customers now token
        = .error .invalidSignature) := by
  constructor
  · intro c e hvd hexp hlt
    unfold sessionAuthenticate
    dsimp only
    rw [hvd]
    simp [hexp, hlt]
  · intro hvd
    unfold sessionAuthenticate
    dsimp only
    rw [hvd]

/-- Witness for C3: a signature-valid token with exp = 1000 presented at
now = 2000 is `expired`, even though a customer row exists. -/
theorem C3_expiry_dominates_witness :
    sessionAuthenticate mac3 parse0 (some "secret") [("CUST001", "tokX")]
      2000 "AA.AA.AQID" = .error .expired :=
  (C3_expiry_dominates_for_valid_signature mac3 parse0 "secret"
    [("CUST001", "tokX")] 2000 "AA.AA.AQID").1 claims0 1000
    (by decide) (by decide) (by decide)

end Ada
